import Mathlib

/-!
Shallow embedding of `podnn/custombnn.py` (POD-UQNN repository): the
`DenseVariational` Bayesian layer and the `BayesianNeuralNetwork` class
(loss, training-step loss, normalization, Monte-Carlo prediction, and
persistence).  Real-valued tensors are modelled as functions out of `Fin`;
the per-call Gaussian noise drawn by `tf.random.normal` is passed as an
explicit argument; the hidden `add_loss` accumulator of Keras is modelled
as an explicit second component of the layer's `call` result.
-/

set_option maxHeartbeats 1000000

noncomputable section

namespace PODBNN

/-- Matrices, rows = samples. -/
abbrev Mat (n d : ℕ) : Type := Fin n → Fin d → ℝ

/-- Vectors of feature-wise values. -/
abbrev Vec (d : ℕ) : Type := Fin d → ℝ

/-- tf.math.softplus: softplus(x) = log(exp(x) + 1). -/
def softplus (x : ℝ) : ℝ := Real.log (Real.exp x + 1)

/-- Density of a normal distribution, `tfp.distributions.Normal(mu, sigma).prob`. -/
def normalPdf (mu sigma x : ℝ) : ℝ :=
  Real.exp (-(x - mu) ^ 2 / (2 * sigma ^ 2)) / (sigma * Real.sqrt (2 * Real.pi))

/-- Log-density of a normal distribution, `tfp.distributions.Normal(mu, sigma).log_prob`. -/
def normalLogPdf (mu sigma x : ℝ) : ℝ :=
  -Real.log (sigma * Real.sqrt (2 * Real.pi)) - (x - mu) ^ 2 / (2 * sigma ^ 2)

/-- The constant `c = np.log(np.expm1(1.))` = log(e - 1) added inside the log in
`DenseVariational.log_prior_prob`. -/
def expm1Log : ℝ := Real.log (Real.exp 1 - 1)

/-- A `DenseVariational` layer: variational posterior parameters (mu, rho) for
kernel and bias, the fixed two-component Gaussian-mixture prior parameters, the
KL scaling weight and the elementwise activation. -/
structure DenseVariational (inDim units : ℕ) where
  kl_weight : ℝ
  activation : ℝ → ℝ
  prior_sigma_1 : ℝ
  prior_sigma_2 : ℝ
  prior_pi : ℝ
  kernel_mu : Fin inDim → Fin units → ℝ
  kernel_rho : Fin inDim → Fin units → ℝ
  bias_mu : Fin units → ℝ
  bias_rho : Fin units → ℝ

namespace DenseVariational

variable {inDim units b : ℕ}

/-- `self.prior_pi_1 = prior_pi`. -/
def prior_pi_1 (L : DenseVariational inDim units) : ℝ := L.prior_pi

/-- `self.prior_pi_2 = 1.0 - prior_pi` (Python's `1.0` is the real number one). -/
def prior_pi_2 (L : DenseVariational inDim units) : ℝ := 1 - L.prior_pi

/-- `log_prior_prob(w)`: `K.log(c + pi_1 * comp_1.prob(w) + pi_2 * comp_2.prob(w))`
with `c = np.log(np.expm1(1.))`. -/
def log_prior_prob (L : DenseVariational inDim units) (w : ℝ) : ℝ :=
  Real.log (expm1Log + L.prior_pi_1 * normalPdf 0 L.prior_sigma_1 w +
            L.prior_pi_2 * normalPdf 0 L.prior_sigma_2 w)

/-- `kl_loss(w, mu, sigma)`: `kl_weight * K.sum(Normal(mu, sigma).log_prob(w) - log_prior_prob(w))`,
for an arbitrary finite index family of weight elements. -/
def kl_loss (L : DenseVariational inDim units) {I : Type} [Fintype I]
    (w mu sigma : I → ℝ) : ℝ :=
  L.kl_weight * ∑ i, (normalLogPdf (mu i) (sigma i) (w i) - L.log_prior_prob (w i))

/-- `kernel_sigma = 1e-3 + tf.math.softplus(0.1 * kernel_rho)`. -/
def kernelSigma (L : DenseVariational inDim units) : Fin inDim → Fin units → ℝ :=
  fun i j => 1e-3 + softplus (0.1 * L.kernel_rho i j)

/-- `bias_sigma = 1e-3 + tf.math.softplus(0.1 * bias_rho)`. -/
def biasSigma (L : DenseVariational inDim units) : Fin units → ℝ :=
  fun j => 1e-3 + softplus (0.1 * L.bias_rho j)

/-- The sampled kernel `kernel = kernel_mu + kernel_sigma * eps`, with the standard
normal draw `eps` passed explicitly. -/
def sampledKernel (L : DenseVariational inDim units)
    (epsK : Fin inDim → Fin units → ℝ) : Fin inDim → Fin units → ℝ :=
  fun i j => L.kernel_mu i j + L.kernelSigma i j * epsK i j

/-- The sampled bias `bias = bias_mu + bias_sigma * eps`. -/
def sampledBias (L : DenseVariational inDim units)
    (epsB : Fin units → ℝ) : Fin units → ℝ :=
  fun j => L.bias_mu j + L.biasSigma j * epsB j

/-- `DenseVariational.call`: samples kernel and bias from the variational posterior,
returns the activated affine output together with the loss added by `add_loss`
(the two KL terms of this forward pass). -/
def call (L : DenseVariational inDim units) (inputs : Mat b inDim)
    (epsK : Fin inDim → Fin units → ℝ) (epsB : Fin units → ℝ) :
    Mat b units × ℝ :=
  let kernel := L.sampledKernel epsK
  let bias := L.sampledBias epsB
  let added :=
    L.kl_loss (fun p : Fin inDim × Fin units => kernel p.1 p.2)
      (fun p => L.kernel_mu p.1 p.2) (fun p => L.kernelSigma p.1 p.2) +
    L.kl_loss bias L.bias_mu L.biasSigma
  (fun r c => L.activation ((∑ i, inputs r i * kernel i c) + bias c), added)

end DenseVariational

/-- Second definition for claim C2, following the spec's words rather than the
source: per-element KL contribution as the log-density of `w` under `N(mu, sigma)`
minus the log-density of `w` under the two-component Gaussian mixture prior
`pi * N(0, sigma_1) + (1 - pi) * N(0, sigma_2)` (no additive constant inside the
log), summed and scaled by `kl_weight`. -/
def specKlLoss {inDim units : ℕ} (L : DenseVariational inDim units) {I : Type}
    [Fintype I] (w mu sigma : I → ℝ) : ℝ :=
  L.kl_weight * ∑ i, (normalLogPdf (mu i) (sigma i) (w i) -
    Real.log (L.prior_pi * normalPdf 0 L.prior_sigma_1 (w i) +
              (1 - L.prior_pi) * normalPdf 0 L.prior_sigma_2 (w i)))

/-- `BayesianNeuralNetwork.loss(y_obs, y_pred)`: the negative Gaussian
log-likelihood `K.sum(-Normal(y_pred, sigma_alea).log_prob(y_obs))`. -/
def loss {n k : ℕ} (sigma_alea : ℝ) (y_obs y_pred : Mat n k) : ℝ :=
  ∑ i, ∑ j, -(normalLogPdf (y_pred i j) sigma_alea (y_obs i j))

/-- Constructor default for `soft_0`. -/
def soft0Default : ℝ := 0.01

/-- Constructor default for `sigma_alea`. -/
def sigmaAleaDefault : ℝ := 0.01

/-- The normalization-mode constants `NORM_NONE`, `NORM_CENTER`, `NORM_MINMAX`,
`NORM_MEANSTD`. -/
inductive NormMode where
  | none
  | center
  | minmax
  | meanstd
  deriving DecidableEq

/-- `X.min(0)`: column-wise minimum (training inputs are nonempty). -/
def colMin {n d : ℕ} (X : Mat (n + 1) d) : Vec d :=
  fun j => Finset.univ.inf' Finset.univ_nonempty (fun i => X i j)

/-- `X.max(0)`: column-wise maximum. -/
def colMax {n d : ℕ} (X : Mat (n + 1) d) : Vec d :=
  fun j => Finset.univ.sup' Finset.univ_nonempty (fun i => X i j)

/-- `X.mean(0)`: column-wise mean. -/
def colMean {n d : ℕ} (X : Mat (n + 1) d) : Vec d :=
  fun j => (∑ i, X i j) / (n + 1)

/-- Column-wise population variance, the quantity under the square root in
`X.std(0)`. -/
def colVar {n d : ℕ} (X : Mat (n + 1) d) : Vec d :=
  fun j => (∑ i, (X i j - colMean X j) ^ 2) / (n + 1)

/-- `X.std(0)`: column-wise population standard deviation. -/
def colStd {n d : ℕ} (X : Mat (n + 1) d) : Vec d :=
  fun j => Real.sqrt (colVar X j)

/-- `BayesianNeuralNetwork.set_normalize_bounds(X)`: stores `(min, max)` for the
`center` and `minmax` modes, `(mean, std)` for `meanstd`, and leaves the stored
bounds unchanged in mode `none`. -/
def set_normalize_bounds {n d : ℕ} (norm : NormMode) (X : Mat (n + 1) d)
    (old : Option (Vec d × Vec d)) : Option (Vec d × Vec d) :=
  match norm with
  | NormMode.center => some (colMin X, colMax X)
  | NormMode.minmax => some (colMin X, colMax X)
  | NormMode.meanstd => some (colMean X, colStd X)
  | NormMode.none => old

/-- `BayesianNeuralNetwork.normalize(X)`: identity when no bounds are stored;
otherwise shifts in `center` mode and z-scores in `meanstd` mode; every other
mode (including `minmax`) returns the input unchanged. The `astype` cast is the
identity in this real-valued model. -/
def normalize {n d : ℕ} (norm : NormMode) (bounds : Option (Vec d × Vec d))
    (X : Mat n d) : Mat n d :=
  match bounds with
  | Option.none => X
  | some (lb, ub) =>
    match norm with
    | NormMode.center => fun i j => (X i j - lb j) - 0.5 * (ub j - lb j)
    | NormMode.meanstd => fun i j => (X i j - lb j) / ub j
    | _ => X

/-- Default of the `samples` argument of `BayesianNeuralNetwork.predict`. -/
def predictSamplesDefault : ℕ := 200

/-- `BayesianNeuralNetwork.predict(X, samples)`: normalizes `X`, performs
`samples` stochastic forward passes of the model on the normalized input
(`model Xn i` is the value of the `i`-th pass, `i` indexing the fresh noise
draw of that pass), and returns the elementwise sample mean (`.mean(0)`) and
population sample variance (`.var(0)`) over the passes. -/
def predict {n d out : ℕ} (norm : NormMode) (bounds : Option (Vec d × Vec d))
    (model : Mat n d → ℕ → Mat n out) (X : Mat n d) (samples : ℕ) :
    Mat n out × Mat n out :=
  let Xn := normalize norm bounds X
  let y_pred : Mat n out :=
    fun r c => (∑ i ∈ Finset.range samples, model Xn i r c) / samples
  let y_pred_var : Mat n out :=
    fun r c => (∑ i ∈ Finset.range samples, (model Xn i r c - y_pred r c) ^ 2) / samples
  (y_pred, y_pred_var)

/-- The state a `BayesianNeuralNetwork` instance holds after construction.
`M` is the type of the underlying Keras model object, `B` the type of stored
normalization bounds. -/
structure BayesianNeuralNetwork (M B : Type) where
  layers : List ℕ
  lr : ℝ
  klw : ℝ
  soft_0 : ℝ
  sigma_alea : ℝ
  adv_eps : Option ℝ
  norm : NormMode
  norm_bounds : Option B
  model : M

/-- The tuple pickled by `save_to`: `(layers, lr, klw, norm, norm_bounds)`. -/
abbrev SavedParams (B : Type) : Type :=
  List ℕ × ℝ × ℝ × NormMode × Option B

/-- `BayesianNeuralNetwork.save_to`: pickles `(layers, lr, klw, norm, norm_bounds)`
into the params artifact and serializes the Keras model into the model artifact. -/
def save_to {M B : Type} (m : BayesianNeuralNetwork M B) : SavedParams B × M :=
  ((m.layers, m.lr, m.klw, m.norm, m.norm_bounds), m.model)

/-- The constructor call made by `load_from`:
`cls(layers, lr, klw, model=model, norm=norm, norm_bounds=norm_bounds)` — the
remaining constructor arguments take their defaults
(`soft_0=0.01`, `sigma_alea=0.01`, `adv_eps=None`). -/
def load_from {M B : Type} (params : SavedParams B) (model : M) :
    BayesianNeuralNetwork M B :=
  match params with
  | (layers, lr, klw, norm, norm_bounds) =>
    { layers := layers, lr := lr, klw := klw,
      soft_0 := soft0Default, sigma_alea := sigmaAleaDefault,
      adv_eps := Option.none, norm := norm, norm_bounds := norm_bounds,
      model := model }

/-- The message of the `FileNotFoundError` raised when the model artifact is
absent. -/
def missingModelMsg : String := "Can\x27t find cached model."

/-- The message of the `FileNotFoundError` raised when the params artifact is
absent. -/
def missingParamsMsg : String := "Can\x27t find cached model params."

/-- `BayesianNeuralNetwork.load_from` including its existence checks: `fs` tells
which paths exist, `readP` and `readM` give the contents of the params and
model artifacts.  The model path is checked first, then the params path; only
when both exist is anything read. -/
def load_from_checked {M B : Type} (fs : String → Bool)
    (readP : String → SavedParams B) (readM : String → M)
    (model_path params_path : String) :
    Except String (BayesianNeuralNetwork M B) :=
  if fs model_path then
    if fs params_path then
      Except.ok (load_from (readP params_path) (readM model_path))
    else
      Except.error missingParamsMsg
  else
    Except.error missingModelMsg

/-- Whether the character list `needle` is an initial segment of `hay`. -/
def listLeads : List Char → List Char → Bool
  | [], _ => true
  | _ :: _, [] => false
  | a :: as, b :: bs => a == b && listLeads as bs

/-- Whether the character list `needle` occurs contiguously inside `hay`. -/
def listOccurs (needle : List Char) : List Char → Bool
  | [] => listLeads needle []
  | b :: bs => listLeads needle (b :: bs) || listOccurs needle bs

/-- Whether the string `needle` occurs as a substring of `hay` — used to state
that an error message "names" a path. -/
def occursIn (needle hay : String) : Bool :=
  listOccurs needle.data hay.data

/-- IEEE-754-style scalar: a finite value (exact real, rounding not modelled),
a signed infinity, or NaN.  Used to express what float64 division does when the
divisor is zero. -/
inductive EF where
  | fin : ℝ → EF
  | posInf : EF
  | negInf : EF
  | nan : EF

/-- Whether an `EF` value is finite. -/
def EF.isFinite : EF → Bool
  | EF.fin _ => true
  | _ => false

/-- IEEE-754 division of float64 values (exact operands): division by zero
yields a signed infinity, `0/0` yields NaN, and no exception is raised. -/
def ieeeDiv (a b : ℝ) : EF :=
  if b = 0 then
    if a = 0 then EF.nan
    else if 0 < a then EF.posInf
    else EF.negInf
  else EF.fin (a / b)

/-- `BayesianNeuralNetwork.normalize` under float64 semantics for the division
of the `meanstd` branch: identical to `normalize` except that the division is
IEEE-754 division (no guard against a zero divisor). -/
def normalizeF {n d : ℕ} (norm : NormMode) (bounds : Option (Vec d × Vec d))
    (X : Mat n d) : Fin n → Fin d → EF :=
  match bounds with
  | Option.none => fun i j => EF.fin (X i j)
  | some (lb, ub) =>
    match norm with
    | NormMode.center => fun i j => EF.fin ((X i j - lb j) - 0.5 * (ub j - lb j))
    | NormMode.meanstd => fun i j => ieeeDiv (X i j - lb j) (ub j)
    | _ => fun i j => EF.fin (X i j)

/-- Concrete `DenseVariational` layer with one input and one unit, linear
activation, the default prior parameters of the source
(`prior_sigma_1=1.5`, `prior_sigma_2=0.1`, `prior_pi=0.5`), unit KL weight and
zero-initialized `mu`/`rho` (the `kernel_rho`/`bias_rho` initializer of `build`
is `Constant(0.)`). -/
def L0 : DenseVariational 1 1 :=
  { kl_weight := 1, activation := id,
    prior_sigma_1 := 1.5, prior_sigma_2 := 0.1, prior_pi := 0.5,
    kernel_mu := fun _ _ => 0, kernel_rho := fun _ _ => 0,
    bias_mu := fun _ => 0, bias_rho := fun _ => 0 }

/-- A 1-sample, 1-feature zero input batch. -/
def X0 : Mat 1 1 := fun _ _ => 0

/-- A 1-sample, 1-output zero target batch. -/
def v0 : Mat 1 1 := fun _ _ => 0

/-- Zero kernel-noise draw for `L0`. -/
def epsK0 : Fin 1 → Fin 1 → ℝ := fun _ _ => 0

/-- Zero bias-noise draw for `L0`. -/
def epsB0 : Fin 1 → ℝ := fun _ => 0

/-- A different bias-noise draw for `L0`. -/
def epsB1 : Fin 1 → ℝ := fun _ => 1

/-- Concrete two-sample input whose single column has values 0 and 2. -/
def X9 : Mat 2 1 := fun i _ => 2 * (i : ℕ)

/-- Concrete two-sample input whose single column is constant. -/
def X10 : Mat 2 1 := fun _ _ => 5

/-- Concrete saved instance with a non-default aleatoric noise scale. -/
def mEx : BayesianNeuralNetwork Unit Unit :=
  { layers := [1, 1], lr := 0.001, klw := 1, soft_0 := 0.01, sigma_alea := 0.5,
    adv_eps := Option.none, norm := NormMode.none, norm_bounds := Option.none,
    model := () }

/-- Concrete model-artifact path. -/
def modelPathEx : String := "/save/keras-model"

/-- Concrete params-artifact path. -/
def paramsPathEx : String := "/save/hyperparams.pkl"

/-- A filesystem on which no path exists. -/
def fsEmpty : String → Bool := fun _ => false

/-- A trivial reader of params artifacts. -/
def readPEx : String → SavedParams Unit :=
  fun _ => ([], 0, 0, NormMode.none, Option.none)

/-- A trivial reader of model artifacts. -/
def readMEx : String → Unit := fun _ => ()

/-- Concrete stochastic model for the prediction witness: pass `i` returns the
constant matrix `i`. -/
def model7 : Mat 1 1 → ℕ → Mat 1 1 := fun _ i _ _ => (i : ℝ)

/-! Shared numeric facts about the functions above. -/

theorem softplus_pos (x : ℝ) : 0 < softplus x := by
  have h : (1 : ℝ) < Real.exp x + 1 := by
    have := Real.exp_pos x
    linarith
  exact Real.log_pos h

theorem softplus_zero : softplus 0 = Real.log 2 := by
  rw [softplus, Real.exp_zero]
  norm_num

theorem sqrt_two_pi_pos : 0 < Real.sqrt (2 * Real.pi) := by
  have h : (0 : ℝ) < 2 * Real.pi := by positivity
  exact Real.sqrt_pos.mpr h

theorem two_lt_sqrt_two_pi : 2 < Real.sqrt (2 * Real.pi) := by
  have hpi := Real.pi_gt_three
  have h4 : (2 : ℝ) ^ 2 < 2 * Real.pi := by nlinarith
  exact (Real.lt_sqrt (by positivity)).mpr h4

theorem sqrt_two_pi_lt : Real.sqrt (2 * Real.pi) < 8 / 3 := by
  have hpi := Real.pi_lt_d2
  have h : 2 * Real.pi < (8 / 3 : ℝ) ^ 2 := by nlinarith
  exact (Real.sqrt_lt' (by norm_num)).mpr h

theorem expm1Log_pos : 0 < expm1Log := by
  have he : (2 : ℝ) < Real.exp 1 := by
    have := Real.exp_one_gt_d9
    linarith
  have h : (1 : ℝ) < Real.exp 1 - 1 := by linarith
  exact Real.log_pos h

theorem normalPdf_at_mean (sigma : ℝ) :
    normalPdf 0 sigma 0 = 1 / (sigma * Real.sqrt (2 * Real.pi)) := by
  simp [normalPdf]

theorem normalLogPdf_at_mean (sigma : ℝ) :
    normalLogPdf 0 sigma 0 = -Real.log (sigma * Real.sqrt (2 * Real.pi)) := by
  simp [normalLogPdf]

theorem call_fst {inDim units b : ℕ} (L : DenseVariational inDim units)
    (inputs : Mat b inDim) (epsK : Fin inDim → Fin units → ℝ)
    (epsB : Fin units → ℝ) :
    (L.call inputs epsK epsB).1 =
      fun r c => L.activation ((∑ i, inputs r i * L.sampledKernel epsK i c) +
        L.sampledBias epsB c) := rfl

theorem call_snd {inDim units b : ℕ} (L : DenseVariational inDim units)
    (inputs : Mat b inDim) (epsK : Fin inDim → Fin units → ℝ)
    (epsB : Fin units → ℝ) :
    (L.call inputs epsK epsB).2 =
      L.kl_loss (fun p : Fin inDim × Fin units => L.sampledKernel epsK p.1 p.2)
        (fun p => L.kernel_mu p.1 p.2) (fun p => L.kernelSigma p.1 p.2) +
      L.kl_loss (L.sampledBias epsB) L.bias_mu L.biasSigma := rfl

/-! Claim theorems. -/

/-- Claim C3 (counterexample): saving and reloading a model whose `sigma_alea`
is `0.5` returns an instance whose `sigma_alea` is the constructor default
`0.01`, not the saved value — `save_to` pickles only
`(layers, lr, klw, norm, norm_bounds)`, so the round trip is not
bit-compatible on every constructor hyperparameter. -/
theorem c3_sigma_alea_not_preserved_cex :
    (load_from (save_to mEx).1 (save_to mEx).2).sigma_alea ≠ mEx.sigma_alea := by
  simp only [load_from, save_to, mEx, sigmaAleaDefault]
  norm_num

/-- Claim C3 (amended): the `save_to`/`load_from` round trip preserves exactly
the pickled hyperparameters `layers`, `lr`, `klw`, `norm`, `norm_bounds` (and
hands the serialized model back to the constructor), while `soft_0`,
`sigma_alea` and `adv_eps` are reset to the constructor defaults
(`0.01`, `0.01`, `None`). -/
theorem c3_roundtrip_preserved_fields {M B : Type} (m : BayesianNeuralNetwork M B) :
    (load_from (save_to m).1 (save_to m).2).layers = m.layers ∧
    (load_from (save_to m).1 (save_to m).2).lr = m.lr ∧
    (load_from (save_to m).1 (save_to m).2).klw = m.klw ∧
    (load_from (save_to m).1 (save_to m).2).norm = m.norm ∧
    (load_from (save_to m).1 (save_to m).2).norm_bounds = m.norm_bounds ∧
    (load_from (save_to m).1 (save_to m).2).model = m.model ∧
    (load_from (save_to m).1 (save_to m).2).soft_0 = soft0Default ∧
    (load_from (save_to m).1 (save_to m).2).sigma_alea = sigmaAleaDefault ∧
    (load_from (save_to m).1 (save_to m).2).adv_eps = Option.none :=
  ⟨rfl, rfl, rfl, rfl, rfl, rfl, rfl, rfl, rfl⟩

/-- Claim C4 (counterexample): when the model artifact is absent, `load_from`
raises `FileNotFoundError("Can't find cached model.")` — a fixed message that
does not contain (hence does not name) the missing path; likewise for the
params artifact. -/
theorem c4_error_message_lacks_path_cex :
    load_from_checked fsEmpty readPEx readMEx modelPathEx paramsPathEx =
      Except.error missingModelMsg ∧
    occursIn modelPathEx missingModelMsg = false ∧
    occursIn paramsPathEx missingParamsMsg = false := by
  refine ⟨rfl, ?_, ?_⟩ <;> decide

/-- Claim C4 (amended): if the model artifact is absent, `load_from` fails with
`FileNotFoundError("Can't find cached model.")`; if the model artifact exists
but the params artifact is absent, it fails with
`FileNotFoundError("Can't find cached model params.")`.  The messages are fixed
strings identifying which artifact is missing but not its path.  In either
missing-artifact case nothing is read: the outcome is independent of the
contents of both files (no partial load). -/
theorem c4_missing_artifact_errors {M B : Type} (fs : String → Bool)
    (readP readP' : String → SavedParams B) (readM readM' : String → M)
    (model_path params_path : String)
    (h : fs model_path = false ∨ fs params_path = false) :
    (fs model_path = false →
      load_from_checked fs readP readM model_path params_path =
        Except.error missingModelMsg) ∧
    (fs model_path = true → fs params_path = false →
      load_from_checked fs readP readM model_path params_path =
        Except.error missingParamsMsg) ∧
    load_from_checked fs readP readM model_path params_path =
      load_from_checked fs readP' readM' model_path params_path := by
  refine ⟨?_, ?_, ?_⟩
  · intro hm
    simp [load_from_checked, hm]
  · intro hm hp
    simp [load_from_checked, hm, hp]
  · rcases h with hm | hp
    · simp [load_from_checked, hm]
    · rcases hfs : fs model_path with _ | _
      · simp [load_from_checked, hfs]
      · simp [load_from_checked, hfs, hp]

/-- Claim C4 (witness): instantiation of the amended theorem on the empty
filesystem and concrete paths. -/
theorem c4_missing_artifact_errors_witness :
    (fsEmpty modelPathEx = false →
      load_from_checked fsEmpty readPEx readMEx modelPathEx paramsPathEx =
        Except.error missingModelMsg) ∧
    (fsEmpty modelPathEx = true → fsEmpty paramsPathEx = false →
      load_from_checked fsEmpty readPEx readMEx modelPathEx paramsPathEx =
        Except.error missingParamsMsg) ∧
    load_from_checked fsEmpty readPEx readMEx modelPathEx paramsPathEx =
      load_from_checked fsEmpty (fun _ => ([7], 1, 1, NormMode.center, Option.none))
        (fun _ => ()) modelPathEx paramsPathEx :=
  c4_missing_artifact_errors fsEmpty readPEx
    (fun _ => ([7], 1, 1, NormMode.center, Option.none)) readMEx (fun _ => ())
    modelPathEx paramsPathEx (Or.inl rfl)

/-- Claim C5 (counterexample): in `minmax` mode, with bounds stored from the
concrete training input `X9`, `normalize` returns the input unchanged — it is
the identity, not a shift: `normalize` has no `minmax` branch. -/
theorem c5_minmax_identity_cex :
    normalize NormMode.minmax (set_normalize_bounds NormMode.minmax X9 Option.none) X9
      = X9 := rfl

/-- Claim C5 (amended): in `minmax` mode `set_normalize_bounds` does store the
`(min, max)` bounds, but `normalize` then ignores them and returns every input
identically (up to the dtype cast): the `minmax` scaling is not implemented at
all, neither as a scale nor as a shift. -/
theorem c5_minmax_normalize_identity {n m d : ℕ} (X : Mat (n + 1) d)
    (old : Option (Vec d × Vec d)) (Y : Mat m d) :
    (set_normalize_bounds NormMode.minmax X old).isSome = true ∧
    normalize NormMode.minmax (set_normalize_bounds NormMode.minmax X old) Y = Y :=
  ⟨rfl, rfl⟩

/-- Claim C8: calling `normalize` when no normalization bounds are stored
returns the input unchanged (the `astype` dtype cast is the identity here) and
raises no error, whatever the normalization mode. -/
theorem c8_normalize_without_bounds_identity {n d : ℕ} (norm : NormMode)
    (X : Mat n d) :
    normalize norm Option.none X = X := rfl

/-- Claim C9: in `meanstd` mode, when every column of the training input has
nonzero standard deviation, storing the bounds with `set_normalize_bounds(X)`
and then normalizing the same `X` yields a matrix whose columns have exactly
zero mean and unit (population) variance. -/
theorem c9_meanstd_roundtrip_standardizes {n d : ℕ} (X : Mat (n + 1) d)
    (h : ∀ j, colStd X j ≠ 0) (j : Fin d) :
    colMean (normalize NormMode.meanstd
      (set_normalize_bounds NormMode.meanstd X Option.none) X) j = 0 ∧
    colVar (normalize NormMode.meanstd
      (set_normalize_bounds NormMode.meanstd X Option.none) X) j = 1 := by
  have hn : ((n : ℝ) + 1) ≠ 0 := by positivity
  have hY : ∀ i, normalize NormMode.meanstd
      (set_normalize_bounds NormMode.meanstd X Option.none) X i j =
      (X i j - colMean X j) / colStd X j := by
    intro i
    simp [normalize, set_normalize_bounds]
  have hsum : ∑ i, (X i j - colMean X j) = 0 := by
    rw [Finset.sum_sub_distrib, Finset.sum_const, Finset.card_univ, Fintype.card_fin]
    rw [colMean, nsmul_eq_mul]
    push_cast
    field_simp
  have hmean : colMean (normalize NormMode.meanstd
      (set_normalize_bounds NormMode.meanstd X Option.none) X) j = 0 := by
    rw [colMean, Finset.sum_congr rfl (fun i _ => hY i), ← Finset.sum_div, hsum]
    simp
  refine ⟨hmean, ?_⟩
  have hvge : 0 ≤ colVar X j := by
    rw [colVar]
    positivity
  have hs2 : colStd X j ^ 2 = colVar X j := Real.sq_sqrt hvge
  have hvne : colVar X j ≠ 0 := by
    intro hv
    exact h j (by rw [colStd, hv, Real.sqrt_zero])
  have hvsum : ∑ i, (X i j - colMean X j) ^ 2 = ((n : ℝ) + 1) * colVar X j := by
    rw [colVar]
    field_simp
  rw [colVar, hmean]
  calc (∑ i, (normalize NormMode.meanstd
          (set_normalize_bounds NormMode.meanstd X Option.none) X i j - 0) ^ 2) /
          ((n : ℕ) + 1 : ℝ)
      = (∑ i, (X i j - colMean X j) ^ 2 / colStd X j ^ 2) / ((n : ℝ) + 1) := by
        congr 1
        refine Finset.sum_congr rfl (fun i _ => ?_)
        rw [hY i, sub_zero, div_pow]
    _ = (((n : ℝ) + 1) * colVar X j / colVar X j) / ((n : ℝ) + 1) := by
        rw [← Finset.sum_div, hvsum, hs2]
    _ = 1 := by
        rw [mul_div_assoc, div_self hvne]
        field_simp

/-- Claim C9 (witness): the concrete two-sample input `X9` (column values 0
and 2) has standard deviation 1, and normalizing it standardizes the column. -/
theorem c9_meanstd_roundtrip_standardizes_witness :
    colMean (normalize NormMode.meanstd
      (set_normalize_bounds NormMode.meanstd X9 Option.none) X9) 0 = 0 ∧
    colVar (normalize NormMode.meanstd
      (set_normalize_bounds NormMode.meanstd X9 Option.none) X9) 0 = 1 := by
  have h : ∀ j : Fin 1, colStd X9 j ≠ 0 := by
    intro j
    have hj : j = 0 := Fin.eq_zero j
    subst hj
    have hm : colMean X9 0 = 1 := by
      rw [colMean, Fin.sum_univ_two]
      simp [X9]
      norm_num
    have hv : colVar X9 0 = 1 := by
      rw [colVar, Fin.sum_univ_two, hm]
      simp [X9]
      norm_num
    rw [colStd, hv, Real.sqrt_one]
    norm_num
  exact c9_meanstd_roundtrip_standardizes X9 h 0

/-- Claim C10: in `meanstd` mode `normalize` divides by the stored per-column
standard deviation with no zero guard.  For a training input with a constant
column, `set_normalize_bounds` stores standard deviation exactly 0 for that
column, and the subsequent `normalize` of the same input performs `0/0` for
every entry of the column — under float64 semantics a NaN, a non-finite value —
while raising no error.  (Scalars are modelled as exact reals extended with the
IEEE-754 special values; rounding is not modelled.) -/
theorem c10_meanstd_zero_std_division {n d : ℕ} (X : Mat (n + 1) d) (j : Fin d)
    (c : ℝ) (hconst : ∀ i, X i j = c) :
    colStd X j = 0 ∧
    ∀ i, normalizeF NormMode.meanstd
        (set_normalize_bounds NormMode.meanstd X Option.none) X i j = EF.nan ∧
      (normalizeF NormMode.meanstd
        (set_normalize_bounds NormMode.meanstd X Option.none) X i j).isFinite
        = false := by
  have hn : ((n : ℝ) + 1) ≠ 0 := by positivity
  have hmean : colMean X j = c := by
    rw [colMean, Finset.sum_congr rfl (fun i _ => hconst i), Finset.sum_const,
      Finset.card_univ, Fintype.card_fin, nsmul_eq_mul]
    push_cast
    field_simp
  have hvar : colVar X j = 0 := by
    rw [colVar]
    have : ∀ i : Fin (n + 1), (X i j - colMean X j) ^ 2 = 0 := by
      intro i
      rw [hconst i, hmean]
      ring
    rw [Finset.sum_congr rfl (fun i _ => this i)]
    simp
  have hstd : colStd X j = 0 := by
    rw [colStd, hvar, Real.sqrt_zero]
  refine ⟨hstd, fun i => ?_⟩
  have hentry : normalizeF NormMode.meanstd
      (set_normalize_bounds NormMode.meanstd X Option.none) X i j =
      ieeeDiv (X i j - colMean X j) (colStd X j) := by
    simp [normalizeF, set_normalize_bounds]
  have hzero : X i j - colMean X j = 0 := by
    rw [hconst i, hmean]
    ring
  rw [hentry, hzero, hstd]
  constructor
  · simp [ieeeDiv]
  · simp [ieeeDiv, EF.isFinite]

/-- Claim C10 (witness): the constant input `X10` (both samples equal 5) has
column standard deviation 0 and normalizing it yields NaN entries. -/
theorem c10_meanstd_zero_std_division_witness :
    colStd X10 0 = 0 ∧
    ∀ i, normalizeF NormMode.meanstd
        (set_normalize_bounds NormMode.meanstd X10 Option.none) X10 i 0 = EF.nan ∧
      (normalizeF NormMode.meanstd
        (set_normalize_bounds NormMode.meanstd X10 Option.none) X10 i 0).isFinite
        = false :=
  c10_meanstd_zero_std_division X10 0 5 (fun _ => rfl)

/-- Claim C6: in every `DenseVariational` forward pass the effective standard
deviations are `1e-3 + softplus(0.1 * rho)` (strictly positive for every
`rho`), the sampled weights are `mu + sigma * eps` with the per-element draw
`eps` passed explicitly, and the output is stochastic: with linear activation,
bias draws that differ at one unit give different layer outputs on the same
input. -/
theorem c6_variational_sampling {inDim units b : ℕ}
    (L : DenseVariational inDim units) (hact : L.activation = id)
    (inputs : Mat (b + 1) inDim) (epsK : Fin inDim → Fin units → ℝ)
    (epsB epsB' : Fin units → ℝ) (j : Fin units) (hne : epsB j ≠ epsB' j) :
    (∀ i c, L.sampledKernel epsK i c =
        L.kernel_mu i c + (1e-3 + softplus (0.1 * L.kernel_rho i c)) * epsK i c) ∧
    (∀ c, L.sampledBias epsB c =
        L.bias_mu c + (1e-3 + softplus (0.1 * L.bias_rho c)) * epsB c) ∧
    (∀ i c, 0 < L.kernelSigma i c) ∧
    (∀ c, 0 < L.biasSigma c) ∧
    (L.call inputs epsK epsB).1 ≠ (L.call inputs epsK epsB').1 := by
  have hbpos : ∀ c, 0 < L.biasSigma c := by
    intro c
    have := softplus_pos (0.1 * L.bias_rho c)
    simp only [DenseVariational.biasSigma]
    norm_num
    linarith
  refine ⟨fun i c => rfl, fun c => rfl, ?_, hbpos, ?_⟩
  · intro i c
    have := softplus_pos (0.1 * L.kernel_rho i c)
    simp only [DenseVariational.kernelSigma]
    norm_num
    linarith
  · intro heq
    have h0 := congrFun (congrFun heq 0) j
    rw [call_fst, call_fst, hact] at h0
    simp only [id_eq] at h0
    have hb : L.sampledBias epsB j = L.sampledBias epsB' j := by
      exact add_left_cancel h0
    simp only [DenseVariational.sampledBias] at hb
    have hmul : L.biasSigma j * epsB j = L.biasSigma j * epsB' j :=
      add_left_cancel hb
    exact hne (mul_left_cancel₀ (ne_of_gt (hbpos j)) hmul)

/-- Claim C6 (witness): instantiation on the concrete layer `L0`, zero input,
and bias draws 0 and 1. -/
theorem c6_variational_sampling_witness :
    (∀ i c, L0.sampledKernel epsK0 i c =
        L0.kernel_mu i c + (1e-3 + softplus (0.1 * L0.kernel_rho i c)) * epsK0 i c) ∧
    (∀ c, L0.sampledBias epsB0 c =
        L0.bias_mu c + (1e-3 + softplus (0.1 * L0.bias_rho c)) * epsB0 c) ∧
    (∀ i c, 0 < L0.kernelSigma i c) ∧
    (∀ c, 0 < L0.biasSigma c) ∧
    (L0.call X0 epsK0 epsB0).1 ≠ (L0.call X0 epsK0 epsB1).1 :=
  c6_variational_sampling L0 rfl X0 epsK0 epsB0 epsB1 0
    (by simp [epsB0, epsB1])

/-- Claim C7: `predict(X, samples=N)` normalizes `X` once, performs the `N`
stochastic forward passes of the model on that normalized input (the result
depends only on the values of the passes with index below `N`), and returns the
elementwise sample mean and (population) sample variance over those passes; the
default of `samples` is 200. -/
theorem c7_predict_mc_mean_var {n d out : ℕ} (norm : NormMode)
    (bounds : Option (Vec d × Vec d)) (model model' : Mat n d → ℕ → Mat n out)
    (X : Mat n d) (N : ℕ)
    (h : ∀ i, i < N →
      model (normalize norm bounds X) i = model' (normalize norm bounds X) i) :
    (∀ r c, (predict norm bounds model X N).1 r c =
        (∑ i ∈ Finset.range N, model (normalize norm bounds X) i r c) / N) ∧
    (∀ r c, (predict norm bounds model X N).2 r c =
        (∑ i ∈ Finset.range N, (model (normalize norm bounds X) i r c -
          (predict norm bounds model X N).1 r c) ^ 2) / N) ∧
    predict norm bounds model X N = predict norm bounds model' X N ∧
    predictSamplesDefault = 200 := by
  have hsum : ∀ r c, (∑ i ∈ Finset.range N, model (normalize norm bounds X) i r c)
      = ∑ i ∈ Finset.range N, model' (normalize norm bounds X) i r c := by
    intro r c
    exact Finset.sum_congr rfl (fun i hi => by
      rw [h i (Finset.mem_range.mp hi)])
  refine ⟨fun r c => rfl, fun r c => rfl, ?_, rfl⟩
  have h1 : (predict norm bounds model X N).1 = (predict norm bounds model' X N).1 := by
    funext r c
    change (∑ i ∈ Finset.range N, model (normalize norm bounds X) i r c) / (N : ℝ)
      = (∑ i ∈ Finset.range N, model' (normalize norm bounds X) i r c) / (N : ℝ)
    rw [hsum r c]
  have h2 : (predict norm bounds model X N).2 = (predict norm bounds model' X N).2 := by
    funext r c
    change (∑ i ∈ Finset.range N, (model (normalize norm bounds X) i r c -
        (∑ k ∈ Finset.range N, model (normalize norm bounds X) k r c) / (N : ℝ)) ^ 2) / (N : ℝ)
      = (∑ i ∈ Finset.range N, (model' (normalize norm bounds X) i r c -
        (∑ k ∈ Finset.range N, model' (normalize norm bounds X) k r c) / (N : ℝ)) ^ 2) / (N : ℝ)
    rw [hsum r c]
    congr 1
    refine Finset.sum_congr rfl (fun i hi => ?_)
    rw [h i (Finset.mem_range.mp hi)]
  exact Prod.ext h1 h2

/-- Claim C7 (witness): instantiation with two passes of the concrete model
`model7` on the zero input without normalization. -/
theorem c7_predict_mc_mean_var_witness :
    (∀ r c, (predict NormMode.none Option.none model7 X0 2).1 r c =
        (∑ i ∈ Finset.range 2, model7 (normalize NormMode.none Option.none X0) i r c) / 2) ∧
    (∀ r c, (predict NormMode.none Option.none model7 X0 2).2 r c =
        (∑ i ∈ Finset.range 2, (model7 (normalize NormMode.none Option.none X0) i r c -
          (predict NormMode.none Option.none model7 X0 2).1 r c) ^ 2) / 2) ∧
    predict NormMode.none Option.none model7 X0 2 =
      predict NormMode.none Option.none model7 X0 2 ∧
    predictSamplesDefault = 200 := by
  exact c7_predict_mc_mean_var NormMode.none Option.none model7 model7 X0 2
    (fun _ _ => rfl)

theorem L0_pass_added_loss :
    (L0.call X0 epsK0 epsB0).2 =
      2 * (normalLogPdf 0 (1e-3 + softplus 0) 0 - L0.log_prior_prob 0) := by
  rw [call_snd]
  simp only [DenseVariational.kl_loss, DenseVariational.sampledKernel,
    DenseVariational.sampledBias, DenseVariational.kernelSigma,
    DenseVariational.biasSigma, L0, epsK0, epsB0]
  norm_num [Finset.sum_const, Finset.card_univ]
  ring

theorem L0_log_prior_prob_zero :
    L0.log_prior_prob 0 =
      Real.log (expm1Log + (0.5 * normalPdf 0 1.5 0 + 0.5 * normalPdf 0 0.1 0)) := by
  simp only [DenseVariational.log_prior_prob, DenseVariational.prior_pi_1,
    DenseVariational.prior_pi_2, L0]
  congr 1
  norm_num
  ring

theorem L0_log_prior_prob_zero_pos : 0 < L0.log_prior_prob 0 := by
  have hs := sqrt_two_pi_pos
  have hs' := sqrt_two_pi_lt
  rw [L0_log_prior_prob_zero, normalPdf_at_mean, normalPdf_at_mean]
  have h5 : (0.5 : ℝ) * (1 / (0.1 * Real.sqrt (2 * Real.pi))) =
      5 / Real.sqrt (2 * Real.pi) := by
    field_simp
    ring
  have h5gt : 1 < 5 / Real.sqrt (2 * Real.pi) := by
    rw [lt_div_iff₀ hs]
    nlinarith
  have hpos1 : 0 < (0.5 : ℝ) * (1 / (1.5 * Real.sqrt (2 * Real.pi))) := by positivity
  refine Real.log_pos ?_
  rw [h5] at *
  linarith [expm1Log_pos, h5gt, hpos1]

theorem L0_pass_added_loss_neg : (L0.call X0 epsK0 epsB0).2 < 0 := by
  have hs := two_lt_sqrt_two_pi
  have hspos := sqrt_two_pi_pos
  have hlog2 := Real.log_two_gt_d9
  have hσ0 : (1e-3 : ℝ) + softplus 0 = 1e-3 + Real.log 2 := by rw [softplus_zero]
  have hprod : 1 < ((1e-3 : ℝ) + softplus 0) * Real.sqrt (2 * Real.pi) := by
    rw [hσ0]
    nlinarith
  have hlp : normalLogPdf 0 (1e-3 + softplus 0) 0 < 0 := by
    rw [normalLogPdf_at_mean]
    have := Real.log_pos hprod
    linarith
  rw [L0_pass_added_loss]
  have := L0_log_prior_prob_zero_pos
  linarith

/-- Claim C1: the loss whose gradient `BayesianNeuralNetwork.grad` applies is
`self.loss(v, self.model(X))` — the negative Gaussian log-likelihood alone.
The KL terms that every `DenseVariational` layer accumulates via `add_loss`
during the forward pass (here the second component of `call`) are never added:
on the concrete one-layer network `L0` with zero parameters and zero noise they
sum to a strictly negative value, so the loss the claim describes (likelihood
plus KL sum) differs from the loss the code optimizes. -/
theorem c1_grad_loss_omits_kl :
    (L0.call X0 epsK0 epsB0).2 < 0 ∧
    loss sigmaAleaDefault v0 (L0.call X0 epsK0 epsB0).1 ≠
      loss sigmaAleaDefault v0 (L0.call X0 epsK0 epsB0).1 +
        (L0.call X0 epsK0 epsB0).2 := by
  refine ⟨L0_pass_added_loss_neg, fun heq => ?_⟩
  have h0 : (L0.call X0 epsK0 epsB0).2 = 0 := by linarith
  have := L0_pass_added_loss_neg
  linarith

/-- Claim C2 (counterexample): on a single weight element with `mu = 0`,
`sigma = 1`, sampled `w = 0` and `kl_weight = 1`, the loss contribution
computed by `kl_loss` differs from the spec's formula: `log_prior_prob` is not
the log-density of the mixture prior because the constant
`c = np.log(np.expm1(1.)) = log(e-1) > 0` is added inside the logarithm. -/
theorem c2_klloss_constant_shift_cex :
    L0.kl_loss (fun _ : Fin 1 => (0 : ℝ)) (fun _ => 0) (fun _ => 1) ≠
      specKlLoss L0 (fun _ : Fin 1 => (0 : ℝ)) (fun _ => 0) (fun _ => 1) := by
  have hs := sqrt_two_pi_pos
  have hcode : L0.kl_loss (fun _ : Fin 1 => (0 : ℝ)) (fun _ => 0) (fun _ => 1) =
      normalLogPdf 0 1 0 - L0.log_prior_prob 0 := by
    simp [DenseVariational.kl_loss, Fin.sum_univ_one, L0]
  have hspec : specKlLoss L0 (fun _ : Fin 1 => (0 : ℝ)) (fun _ => 0) (fun _ => 1) =
      normalLogPdf 0 1 0 -
        Real.log (0.5 * normalPdf 0 1.5 0 + 0.5 * normalPdf 0 0.1 0) := by
    simp [specKlLoss, Fin.sum_univ_one, L0]
    norm_num
  have hmixpos : 0 < (0.5 : ℝ) * normalPdf 0 1.5 0 + 0.5 * normalPdf 0 0.1 0 := by
    rw [normalPdf_at_mean, normalPdf_at_mean]
    positivity
  have hlt : Real.log ((0.5 : ℝ) * normalPdf 0 1.5 0 + 0.5 * normalPdf 0 0.1 0) <
      Real.log (expm1Log + ((0.5 : ℝ) * normalPdf 0 1.5 0 + 0.5 * normalPdf 0 0.1 0)) :=
    Real.log_lt_log hmixpos (by linarith [expm1Log_pos])
  rw [hcode, hspec, L0_log_prior_prob_zero]
  intro heq
  have : Real.log (expm1Log + ((0.5 : ℝ) * normalPdf 0 1.5 0 + 0.5 * normalPdf 0 0.1 0)) =
      Real.log ((0.5 : ℝ) * normalPdf 0 1.5 0 + 0.5 * normalPdf 0 0.1 0) := by
    linarith
  linarith

/-- Claim C2 (amended): every `DenseVariational` forward pass adds
`kl_weight` times the sum, over all kernel and bias elements, of the
log-density of the sampled weight under `N(mu, sigma)` minus
`log(c + pi * N(0, sigma_1).pdf(w) + (1 - pi) * N(0, sigma_2).pdf(w))`
where `c = log(e - 1)`: the prior term is the mixture density shifted by the
fixed constant `c` inside the logarithm, not the mixture log-density itself.
The prior parameters enter only as the fixed layer constants. -/
theorem c2_call_added_loss_formula {inDim units b : ℕ}
    (L : DenseVariational inDim units) (inputs : Mat b inDim)
    (epsK : Fin inDim → Fin units → ℝ) (epsB : Fin units → ℝ) :
    (L.call inputs epsK epsB).2 =
      L.kl_weight *
        ((∑ p : Fin inDim × Fin units,
            (normalLogPdf (L.kernel_mu p.1 p.2) (L.kernelSigma p.1 p.2)
                (L.sampledKernel epsK p.1 p.2) -
              Real.log (Real.log (Real.exp 1 - 1) +
                L.prior_pi * normalPdf 0 L.prior_sigma_1 (L.sampledKernel epsK p.1 p.2) +
                (1 - L.prior_pi) * normalPdf 0 L.prior_sigma_2 (L.sampledKernel epsK p.1 p.2)))) +
          ∑ j, (normalLogPdf (L.bias_mu j) (L.biasSigma j) (L.sampledBias epsB j) -
              Real.log (Real.log (Real.exp 1 - 1) +
                L.prior_pi * normalPdf 0 L.prior_sigma_1 (L.sampledBias epsB j) +
                (1 - L.prior_pi) * normalPdf 0 L.prior_sigma_2 (L.sampledBias epsB j)))) := by
  rw [call_snd]
  simp only [DenseVariational.kl_loss, DenseVariational.log_prior_prob,
    DenseVariational.prior_pi_1, DenseVariational.prior_pi_2, expm1Log]
  ring

end PODBNN
